import Mathlib

/-!
Shallow embedding of `src/main.py` ("Predator's Odyssey" command-line
prototype) and proofs about its combat, skill and fusion rules.

Python integers are modelled as `Int`; Python lists as `List`;
`frozenset` of skill names as `Finset String`; the Python `dict` keyed by
frozensets as an association list where a later registration is inserted
in front and lookup scans from the front (so a later registration for the
same key shadows the earlier one, matching dict overwrite semantics);
random draws (`random.randint`, `random.sample`, `random.choice`) as
explicit parameters or streams of values, constrained by hypotheses to
the ranges the Python RNG guarantees.
-/

namespace PredatorsOdyssey

/-- Embedding of `class Skill` (main.py lines 24-33): a named ability with
descriptive metadata.  Equality of identities is equality of `name`. -/
structure Skill where
  name : String
  description : String
  category : String
deriving DecidableEq

/-- The eight entries of `BASIC_SKILLS` (main.py lines 215-224). -/
def fireballSkill : Skill :=
  ⟨"Fireball", "Hurl a small orb of fire.", "Fire"⟩

def threadShotSkill : Skill :=
  ⟨"Thread Shot", "Shoot a sticky thread that briefly snares foes.", "Wind"⟩

def acidGlobSkill : Skill :=
  ⟨"Acid Glob", "Spit a glob of acid that corrodes armour.", "Venom"⟩

def waterJetSkill : Skill :=
  ⟨"Water Jet", "Send a focused jet of water at high pressure.", "Water"⟩

def electricCurrentSkill : Skill :=
  ⟨"Electric Current", "Emit a surge of electricity.", "Lightning"⟩

def stoneShardSkill : Skill :=
  ⟨"Stone Shard", "Launch a sharp shard of rock.", "Earth"⟩

def windBurstSkill : Skill :=
  ⟨"Wind Burst", "Release a concussive blast of air.", "Wind"⟩

def shadowSneakSkill : Skill :=
  ⟨"Shadow Sneak", "Momentarily fade into shadows, avoiding harm.", "Dark"⟩

/-- `BASIC_SKILLS` (main.py lines 215-224). -/
def BASIC_SKILLS : List Skill :=
  [fireballSkill, threadShotSkill, acidGlobSkill, waterJetSkill,
   electricCurrentSkill, stoneShardSkill, windBurstSkill, shadowSneakSkill]

/-- The key of the fusion dictionary: `frozenset([name_a, name_b])`
(main.py line 51 and line 85). -/
abbrev FusionKey := Finset String

/-- Embedding of `class FusionTable` (main.py lines 36-86): the `_table`
dict is an association list; a later registration is consed in front so
that lookup (which scans from the front) sees it first, matching the
dict's overwrite semantics. -/
structure FusionTable where
  table : List (FusionKey × Skill)
deriving DecidableEq

/-- The inner `add` helper of `_register_default_fusions` (main.py lines
50-51): `self._table[frozenset([skill_a, skill_b])] = result`.  It
performs no validation whatsoever: any pair of names, equal or not, is
accepted and inserted. -/
def FusionTable.add (t : FusionTable) (skill_a skill_b : String) (result : Skill) :
    FusionTable :=
  ⟨({skill_a, skill_b}, result) :: t.table⟩

/-- Dict lookup `self._table.get(key)` (main.py line 86). -/
def FusionTable.getKey (t : FusionTable) (key : FusionKey) : Option Skill :=
  (t.table.find? (fun p => decide (p.1 = key))).map Prod.snd

/-- `FusionTable.fuse` (main.py lines 83-86): build the frozenset key from
the two skills' names and look it up; `None` when absent. -/
def FusionTable.fuse (t : FusionTable) (skill_a skill_b : Skill) : Option Skill :=
  t.getKey {skill_a.name, skill_b.name}

/-- The three fusion-result skills registered by
`_register_default_fusions` (main.py lines 54-80). -/
def acidicWebSkill : Skill :=
  ⟨"Acidic Web", "Fires a sticky web that deals damage over time and slows victims.",
   "Venom"⟩

def conductiveSpraySkill : Skill :=
  ⟨"Conductive Spray", "A stream of water that electrocutes multiple foes.",
   "Water/Lightning"⟩

def flamingCycloneSkill : Skill :=
  ⟨"Flaming Cyclone", "A fiery vortex that pulls in enemies while burning them.",
   "Fire/Wind"⟩

/-- `FusionTable.__init__` followed by `_register_default_fusions`
(main.py lines 44-80): the table holding the three curated fusions. -/
def defaultFusionTable : FusionTable :=
  (((FusionTable.mk []).add "Thread Shot" "Acid Glob" acidicWebSkill).add
      "Water Jet" "Electric Current" conductiveSpraySkill).add
    "Fireball" "Wind Burst" flamingCycloneSkill

/-- Embedding of `class Creature` (main.py lines 89-116): name, max
health, current health and the ordered list of known skills. -/
structure Creature where
  name : String
  maxHealth : Int
  health : Int
  skills : List Skill
deriving DecidableEq

/-- `Creature.__init__` (main.py lines 92-96): health starts at full. -/
def mkCreature (name : String) (max_health : Int) (skills : List Skill) : Creature :=
  ⟨name, max_health, max_health, skills⟩

/-- `Creature.is_alive` (main.py lines 98-99). -/
def Creature.isAlive (c : Creature) : Bool :=
  decide (0 < c.health)

/-- `Creature.take_damage` (main.py lines 101-102):
`self.health = max(0, self.health - amount)`. -/
def Creature.takeDamage (c : Creature) (amount : Int) : Creature :=
  { c with health := max 0 (c.health - amount) }

/-- `Creature.attack_power` (main.py lines 104-111):
`len(self.skills) * random.randint(1, 3)`, with the random draw `r`
passed explicitly. -/
def Creature.attackPower (c : Creature) (r : Int) : Int :=
  (c.skills.length : Int) * r

/-- The skill-list update of `Creature.absorb_skill` (main.py lines
113-116): append only if no existing entry shares the name. -/
def absorbSkillList (skills : List Skill) (skill : Skill) : List Skill :=
  if skill.name ∈ skills.map Skill.name then skills else skills ++ [skill]

/-- `Creature.absorb_skill` (main.py lines 113-116). -/
def Creature.absorbSkill (c : Creature) (skill : Skill) : Creature :=
  { c with skills := absorbSkillList c.skills skill }

/-- `Player.evolve` (main.py lines 128-135), which touches only the
`Creature` fields: `max_health += 5; health = max_health`. -/
def Creature.evolve (c : Creature) : Creature :=
  { c with maxHealth := c.maxHealth + 5, health := c.maxHealth + 5 }

/-- The healing step of ascension (main.py line 295):
`health = min(max_health, health + 3)`. -/
def Creature.ascendHeal (c : Creature) : Creature :=
  { c with health := min c.maxHealth (c.health + 3) }

/-- The enemy max-health formula of `Enemy.__init__` (main.py line 206):
`5 + max(0, -player_layer - 10) * 2`. -/
def enemyMaxHealth (player_layer : Int) : Int :=
  5 + max 0 (-player_layer - 10) * 2

/-- `Enemy.__init__` (main.py lines 203-210) with the random draws (name
and sampled skills) passed explicitly: max health is derived from the
player's layer and health starts at full. -/
def mkEnemy (name : String) (player_layer : Int) (skills : List Skill) : Creature :=
  mkCreature name (enemyMaxHealth player_layer) skills

/-- Embedding of `class Player` (main.py lines 119-126): a `Creature`
plus the depth `layer` field (starting at `-10` in `__init__`). -/
structure Player extends Creature where
  layer : Int
deriving DecidableEq

/-- Outcome of choosing "Ascend" in `play_game` (main.py lines 288-296). -/
inductive AscendResult where
  | surfaceReached
  | ascended
deriving DecidableEq

/-- The "Ascend to the next layer" branch of `play_game` (main.py lines
288-296): at layer `-1` the session ends at the surface with no state
change; otherwise the layer increments and the player heals by
`min(max_health, health + 3)`. -/
def ascend (p : Player) : AscendResult × Player :=
  if p.layer = -1 then
    (AscendResult.surfaceReached, p)
  else
    (AscendResult.ascended,
      { p with
        layer := p.layer + 1,
        toCreature := p.toCreature.ascendHeal })

/-- Embedding of `battle` (main.py lines 227-251), with the stream of
`random.randint(1, 3)` draws made explicit as `rng` consumed from index
`i` on, and a fuel parameter bounding the number of loop iterations
(`none` meaning the fuel ran out before the loop did).  Per iteration of
`while player.is_alive() and enemy.is_alive()`: the player attacks first;
if the enemy dies the function returns `True` with no retaliation;
otherwise the enemy retaliates and `False` is returned if the player
dies.  The trailing `return False` (reached only when the loop guard
fails) is the final `else` branch. -/
def battle : Nat → Creature → Creature → (Nat → Int) → Nat → Option Bool
  | 0, _, _, _, _ => none
  | fuel + 1, player, enemy, rng, i =>
    if player.isAlive && enemy.isAlive then
      let enemy' := enemy.takeDamage (player.attackPower (rng i))
      if !enemy'.isAlive then
        some true
      else
        let player' := player.takeDamage (enemy'.attackPower (rng (i + 1)))
        if !player'.isAlive then
          some false
        else
          battle fuel player' enemy' rng (i + 2)
    else
      some false

/-- The state-changing operations `play_game` (main.py lines 254-301) and
`battle` apply to a creature's health/skill state: a `take_damage` call,
an evolution, the ascension heal, and a skill absorption. -/
inductive GameOp where
  | damage (amount : Int)
  | evolve
  | ascendHeal
  | absorb (skill : Skill)
deriving DecidableEq

/-- Whether an operation's damage amount is non-negative (the spec's
precondition on `takeDamage`). -/
def GameOp.nonneg : GameOp → Bool
  | .damage amount => decide (0 ≤ amount)
  | _ => true

/-- Apply one operation to a creature. -/
def applyOp (c : Creature) : GameOp → Creature
  | .damage amount => c.takeDamage amount
  | .evolve => c.evolve
  | .ascendHeal => c.ascendHeal
  | .absorb skill => c.absorbSkill skill

/-- Apply a sequence of operations, left to right. -/
def applyOps (c : Creature) (ops : List GameOp) : Creature :=
  ops.foldl applyOp c

/-- The health invariant `0 <= health <= maxHealth`. -/
abbrev healthInv (c : Creature) : Prop :=
  0 ≤ c.health ∧ c.health ≤ c.maxHealth

/-- The pair-enumeration loop of `Player.choose_fusion` (main.py lines
164-171): all index pairs `i < j` over the skill list whose two skills
have a registered fusion, in ascending lexicographic order. -/
def fusionPairs (skills : List Skill) (fusion_table : FusionTable) :
    List (Nat × Nat × Skill) :=
  (List.range skills.length).flatMap (fun i =>
    (List.range' (i + 1) (skills.length - (i + 1))).filterMap (fun j =>
      match skills[i]?, skills[j]? with
      | some s1, some s2 => (fusion_table.fuse s1 s2).map (fun f => (i, j, f))
      | _, _ => none))

/-- The state change of `Player.choose_fusion` (main.py lines 155-197)
once the player enters choice `choice` (1-based): with fewer than two
skills, or no available fusion, or an out-of-range choice, nothing
changes (`none`); otherwise the two contributing skills are removed by
position, higher index first (`for index in sorted([i, j],
reverse=True): del self.skills[index]`), and the fusion result is added
via `absorb_skill`.  Returns the player's new skill list. -/
def chooseFusion (skills : List Skill) (fusion_table : FusionTable) (choice : Nat) :
    Option (List Skill) :=
  if skills.length < 2 then
    none
  else
    let pairs := fusionPairs skills fusion_table
    if pairs.isEmpty then
      none
    else if 1 ≤ choice ∧ choice ≤ pairs.length then
      match pairs[choice - 1]? with
      | some (i, j, result_skill) =>
        let afterRemoval := (skills.eraseIdx (max i j)).eraseIdx (min i j)
        some (absorbSkillList afterRemoval result_skill)
      | none => none
    else
      none

/-! ## Helper lemmas -/

/-- A single operation with a non-negative damage amount preserves the
health invariant. -/
theorem applyOp_healthInv (c : Creature) (op : GameOp)
    (hc : healthInv c) (hop : op.nonneg = true) : healthInv (applyOp c op) := by
  cases op with
  | damage amount =>
    simp only [GameOp.nonneg, decide_eq_true_eq] at hop
    obtain ⟨h1, h2⟩ := hc
    constructor
    · exact le_max_left 0 _
    · simp only [applyOp, Creature.takeDamage]
      rw [max_le_iff]
      omega
  | evolve =>
    obtain ⟨h1, h2⟩ := hc
    exact ⟨by simp only [applyOp, Creature.evolve]; omega, le_refl _⟩
  | ascendHeal =>
    obtain ⟨h1, h2⟩ := hc
    constructor
    · simp only [applyOp, Creature.ascendHeal, le_min_iff]
      omega
    · exact min_le_left _ _
  | absorb skill =>
    exact hc

/-- A sequence of operations with non-negative damage amounts preserves
the health invariant. -/
theorem applyOps_healthInv (ops : List GameOp) : ∀ (c : Creature), healthInv c →
    (∀ op ∈ ops, op.nonneg = true) → healthInv (applyOps c ops) := by
  induction ops with
  | nil => intro c hc _; exact hc
  | cons op rest ih =>
    intro c hc hops
    have h1 : healthInv (applyOp c op) :=
      applyOp_healthInv c op hc (hops op (by simp))
    exact ih (applyOp c op) h1 (fun o ho => hops o (by simp [ho]))

/-- `battle` returns an outcome whenever the player knows at least one
skill, every random draw is at least 1, and the fuel exceeds the enemy's
health: each loop iteration the player's attack is at least
`len(skills) * 1 ≥ 1`, so the enemy's positive health strictly
decreases. -/
theorem battle_terminates_aux : ∀ (fuel : Nat) (player enemy : Creature)
    (rng : Nat → Int) (i : Nat),
    (∀ n, 1 ≤ rng n) → player.skills ≠ [] → enemy.health.toNat < fuel →
    ∃ b, battle fuel player enemy rng i = some b := by
  intro fuel
  induction fuel with
  | zero =>
    intro p e rng i _ _ hf
    omega
  | succ fuel ih =>
    intro p e rng i hrng hskills hf
    cases halive : (p.isAlive && e.isAlive) with
    | false =>
      exact ⟨false, by simp [battle, halive]⟩
    | true =>
      have he : 0 < e.health := by
        have h2 := (Bool.and_eq_true _ _).mp halive |>.2
        simpa [Creature.isAlive] using h2
      have hpd : 1 ≤ p.attackPower (rng i) := by
        have hlen : 1 ≤ p.skills.length := List.length_pos.mpr hskills
        have hlen' : (1 : Int) ≤ (p.skills.length : Int) := by exact_mod_cast hlen
        have := mul_le_mul hlen' (hrng i) (by norm_num)
          (le_trans (by norm_num) hlen')
        simpa [Creature.attackPower] using this
      cases hb : (e.takeDamage (p.attackPower (rng i))).isAlive with
      | false =>
        exact ⟨true, by simp [battle, halive, hb]⟩
      | true =>
        have he' : (e.takeDamage (p.attackPower (rng i))).health =
            max 0 (e.health - p.attackPower (rng i)) := rfl
        have he'pos : 0 < (e.takeDamage (p.attackPower (rng i))).health := by
          simpa [Creature.isAlive] using hb
        have he'lt : (e.takeDamage (p.attackPower (rng i))).health < e.health := by
          rcases max_choice 0 (e.health - p.attackPower (rng i)) with h | h <;>
            rw [he', h] <;> omega
        cases hb2 : (p.takeDamage
            ((e.takeDamage (p.attackPower (rng i))).attackPower (rng (i + 1)))).isAlive with
        | false =>
          exact ⟨false, by simp [battle, halive, hb, hb2]⟩
        | true =>
          have hsk' : (p.takeDamage
              ((e.takeDamage (p.attackPower (rng i))).attackPower (rng (i + 1)))).skills ≠ [] :=
            hskills
          have hfuel' : (e.takeDamage (p.attackPower (rng i))).health.toNat < fuel := by
            omega
          obtain ⟨b, hrec⟩ := ih
            (p.takeDamage ((e.takeDamage (p.attackPower (rng i))).attackPower (rng (i + 1))))
            (e.takeDamage (p.attackPower (rng i))) rng (i + 2) hrng hsk' hfuel'
          refine ⟨b, ?_⟩
          simpa [battle, halive, hb, hb2] using hrec

/-! ## Claims -/

/-- C1: for any two creatures each with at least one known skill (and
random draws in the range `randint(1, 3)` guarantees), `battle`
terminates within `enemy.health` turns and returns exactly one outcome —
some `b` (`true` = player victory, `false` = player defeat), and any
returned outcome equals that `b`; moreover the player's attack power is
at least `numberOfKnownSkills * 1 ≥ 1`. -/
theorem C1_battle_terminates (player enemy : Creature) (rng : Nat → Int)
    (hrng : ∀ n, 1 ≤ rng n ∧ rng n ≤ 3)
    (hp : player.skills ≠ []) (_he : enemy.skills ≠ []) :
    1 ≤ player.attackPower (rng 0) ∧
    ∃ b, battle (enemy.health.toNat + 1) player enemy rng 0 = some b ∧
      ∀ b', battle (enemy.health.toNat + 1) player enemy rng 0 = some b' → b' = b := by
  have hpd : 1 ≤ player.attackPower (rng 0) := by
    have hlen : 1 ≤ player.skills.length := List.length_pos.mpr hp
    have hlen' : (1 : Int) ≤ (player.skills.length : Int) := by exact_mod_cast hlen
    have := mul_le_mul hlen' ((hrng 0).1) (by norm_num)
      (le_trans (by norm_num) hlen')
    simpa [Creature.attackPower] using this
  obtain ⟨b, hb⟩ := battle_terminates_aux (enemy.health.toNat + 1) player enemy rng 0
    (fun n => (hrng n).1) hp (by omega)
  refine ⟨hpd, b, hb, fun b' hb' => ?_⟩
  rw [hb] at hb'
  exact (Option.some.inj hb').symm

/-- Witness for C1 at a concrete battle: a one-skill player with 15
health against a one-skill enemy spawned at layer -10, with every random
draw equal to 1. -/
theorem C1_battle_terminates_witness :
    1 ≤ (mkCreature "You" 15 [fireballSkill]).attackPower ((fun _ => (1 : Int)) 0) ∧
    ∃ b, battle ((mkEnemy "Goblin" (-10) [acidGlobSkill]).health.toNat + 1)
        (mkCreature "You" 15 [fireballSkill]) (mkEnemy "Goblin" (-10) [acidGlobSkill])
        (fun _ => (1 : Int)) 0 = some b ∧
      ∀ b', battle ((mkEnemy "Goblin" (-10) [acidGlobSkill]).health.toNat + 1)
          (mkCreature "You" 15 [fireballSkill]) (mkEnemy "Goblin" (-10) [acidGlobSkill])
          (fun _ => (1 : Int)) 0 = some b' → b' = b :=
  C1_battle_terminates (mkCreature "You" 15 [fireballSkill])
    (mkEnemy "Goblin" (-10) [acidGlobSkill]) (fun _ => (1 : Int))
    (fun _ => by norm_num) (by decide) (by decide)

/-- C2: for every creature satisfying `0 ≤ health ≤ maxHealth` and every
sequence of operations (take-damage with non-negative amounts,
evolution, ascension healing, skill absorption), the invariant still
holds afterwards; `takeDamage` sets health to `max(0, health - amount)`,
is a no-op on a creature at 0 health (for non-negative amounts), and
every freshly spawned enemy satisfies the invariant. -/
theorem C2_health_bounds (c : Creature) (ops : List GameOp)
    (hc : healthInv c) (hops : ∀ op ∈ ops, op.nonneg = true) :
    healthInv (applyOps c ops) ∧
    (∀ (amount : Int), (c.takeDamage amount).health = max 0 (c.health - amount)) ∧
    (c.health = 0 → ∀ (amount : Int), 0 ≤ amount → c.takeDamage amount = c) ∧
    (∀ (name : String) (d : Int) (skills : List Skill), healthInv (mkEnemy name d skills)) := by
  refine ⟨applyOps_healthInv ops c hc hops, fun amount => rfl, ?_, ?_⟩
  · intro h0 amount hamount
    cases c with
    | mk name maxHealth health skills =>
      simp only at h0
      subst h0
      simp only [Creature.takeDamage]
      congr 1
      omega
  · intro name d skills
    constructor
    · show (0 : Int) ≤ enemyMaxHealth d
      unfold enemyMaxHealth
      rcases max_choice (0 : Int) (-d - 10) with h | h <;> rw [h] <;> omega
    · exact le_refl _

/-- Witness for C2 at a concrete creature and operation sequence. -/
theorem C2_health_bounds_witness :
    healthInv (applyOps (mkCreature "You" 15 [fireballSkill])
      [GameOp.damage 7, GameOp.ascendHeal, GameOp.evolve, GameOp.damage 100,
       GameOp.absorb acidGlobSkill, GameOp.damage 3]) :=
  (C2_health_bounds (mkCreature "You" 15 [fireballSkill])
    [GameOp.damage 7, GameOp.ascendHeal, GameOp.evolve, GameOp.damage 100,
     GameOp.absorb acidGlobSkill, GameOp.damage 3] (by decide) (by decide)).1

/-- C3 counterexample: registering the pair ("Fireball", "Fireball") on
the default table does NOT fail — there is no `InvalidFusionError`
anywhere in the code; the registration succeeds, grows the table by one
entry, and the self-pair rule is afterwards retrievable by `fuse`. -/
theorem C3_self_fusion_counterexample :
    (defaultFusionTable.add "Fireball" "Fireball" acidicWebSkill).fuse
      fireballSkill fireballSkill = some acidicWebSkill ∧
    (defaultFusionTable.add "Fireball" "Fireball" acidicWebSkill).table.length =
      defaultFusionTable.table.length + 1 := by
  constructor
  · rfl
  · rfl

/-- C3 amended: registration performs no validation: for every skill A,
registering (A, A, result) succeeds, inserting the rule under the
singleton key {A.name} (since `frozenset([a, a]) = {a}`), and a
subsequent `fuse(A, A)` returns the registered result. -/
theorem C3_self_fusion_amended (t : FusionTable) (a result : Skill) :
    t.add a.name a.name result = ⟨({a.name}, result) :: t.table⟩ ∧
    (t.add a.name a.name result).fuse a a = some result := by
  constructor
  · simp [FusionTable.add, Finset.insert_idem]
  · simp [FusionTable.fuse, FusionTable.getKey, FusionTable.add, List.find?]

/-- C4 counterexample: at depth layer -11, which lies in [-20, -1], a
spawned enemy has max health 7, not 5 — so the formula already exceeds 5
above -20. -/
theorem C4_depth_counterexample :
    (mkEnemy "Goblin" (-11) [acidGlobSkill]).maxHealth = 7 ∧
    ((-20 : Int) ≤ -11 ∧ (-11 : Int) ≤ -1) ∧
    (mkEnemy "Goblin" (-11) [acidGlobSkill]).maxHealth ≠ 5 := by
  refine ⟨rfl, by norm_num, by decide⟩

/-- C4 amended: the enemy max-health formula yields 5 for every depth
layer at least -10 (in particular throughout the playable range
[-10, -1]), and yields strictly more than 5 exactly when the depth layer
is below -10 (not -20). -/
theorem C4_depth_scaling_amended (name : String) (skills : List Skill) (d : Int) :
    (-10 ≤ d → (mkEnemy name d skills).maxHealth = 5) ∧
    (5 < (mkEnemy name d skills).maxHealth ↔ d < -10) := by
  show (-10 ≤ d → 5 + max 0 (-d - 10) * 2 = 5) ∧
    (5 < 5 + max 0 (-d - 10) * 2 ↔ d < -10)
  rcases le_or_lt (-d - 10) 0 with h | h
  · rw [max_eq_left h]
    constructor
    · intro _; ring
    · constructor
      · intro hlt; omega
      · intro hd; omega
  · rw [max_eq_right (le_of_lt h)]
    constructor
    · intro hd; omega
    · constructor
      · intro _; omega
      · intro _; omega

/-- Witness for C4's amended claim at depth -10 (value 5) and depth -11
(value exceeding 5). -/
theorem C4_depth_scaling_amended_witness :
    (mkEnemy "Goblin" (-10) [acidGlobSkill]).maxHealth = 5 ∧
    (5 < (mkEnemy "Goblin" (-11) [acidGlobSkill]).maxHealth) :=
  ⟨(C4_depth_scaling_amended "Goblin" [acidGlobSkill] (-10)).1 (by norm_num),
   (C4_depth_scaling_amended "Goblin" [acidGlobSkill] (-11)).2.mpr (by norm_num)⟩

/-- C5: a spawned enemy's max health equals `5 + max(0, -d - 10) * 2`;
in particular 5 at depth -10 and 47 at depth -31. -/
theorem C5_enemy_health_formula :
    (∀ (name : String) (d : Int) (skills : List Skill),
      (mkEnemy name d skills).maxHealth = 5 + max 0 (-d - 10) * 2) ∧
    (mkEnemy "Goblin" (-10) [fireballSkill]).maxHealth = 5 ∧
    (mkEnemy "Slime" (-31) [fireballSkill]).maxHealth = 47 :=
  ⟨fun _ _ _ => rfl, by decide, by decide⟩

/-- C6: fusion lookup is commutative — for every table and every pair of
skills, `fuse(A, B)` and `fuse(B, A)` return the same `Option` result,
because the key `frozenset` is order-independent. -/
theorem C6_fuse_comm (t : FusionTable) (a b : Skill) :
    t.fuse a b = t.fuse b a := by
  unfold FusionTable.fuse
  rw [Finset.pair_comm]

/-- C7: a player knowing exactly Thread Shot and Acid Glob (in either
order) who selects the sole fusion candidate offered against the default
table ends with the known-skills list exactly [Acidic Web]. -/
theorem C7_fusion_application :
    chooseFusion [threadShotSkill, acidGlobSkill] defaultFusionTable 1 =
      some [acidicWebSkill] ∧
    chooseFusion [acidGlobSkill, threadShotSkill] defaultFusionTable 1 =
      some [acidicWebSkill] := by
  constructor <;> decide

/-- C8: `absorbSkill` is idempotent — absorbing a skill whose name
already occurs in the known-skills list is a no-op, absorbing the same
skill twice equals absorbing it once, and a genuinely new skill is
appended at the end (insertion order preserved). -/
theorem C8_absorb_idempotent (c : Creature) (s : Skill) :
    (s.name ∈ c.skills.map Skill.name → c.absorbSkill s = c) ∧
    (c.absorbSkill s).absorbSkill s = c.absorbSkill s ∧
    (s.name ∉ c.skills.map Skill.name → (c.absorbSkill s).skills = c.skills ++ [s]) := by
  have key : ∀ (d : Creature) (t : Skill), t.name ∈ d.skills.map Skill.name →
      d.absorbSkill t = d := by
    intro d t h
    show { d with skills := absorbSkillList d.skills t } = d
    rw [absorbSkillList, if_pos h]
  refine ⟨key c s, ?_, ?_⟩
  · by_cases h : s.name ∈ c.skills.map Skill.name
    · rw [key c s h]
      exact key c s h
    · refine key (c.absorbSkill s) s ?_
      show s.name ∈ (absorbSkillList c.skills s).map Skill.name
      rw [absorbSkillList, if_neg h]
      simp
  · intro h
    show absorbSkillList c.skills s = c.skills ++ [s]
    rw [absorbSkillList, if_neg h]

/-- Witness for C8: re-absorbing an already-known skill is a no-op, and
absorbing a new skill appends it. -/
theorem C8_absorb_idempotent_witness :
    (mkCreature "You" 15 [fireballSkill]).absorbSkill fireballSkill =
      mkCreature "You" 15 [fireballSkill] ∧
    ((mkCreature "You" 15 [fireballSkill]).absorbSkill shadowSneakSkill).skills =
      [fireballSkill] ++ [shadowSneakSkill] :=
  ⟨(C8_absorb_idempotent (mkCreature "You" 15 [fireballSkill]) fireballSkill).1 (by decide),
   (C8_absorb_idempotent (mkCreature "You" 15 [fireballSkill]) shadowSneakSkill).2.2 (by decide)⟩

/-- C9: `ascend` at layer -1 returns `SurfaceReached` with the player
completely unchanged; at any other layer it returns `ascended`,
increments the layer, sets health to `min(maxHealth, health + 3)`, and
leaves max health and skills untouched. -/
theorem C9_ascend_terminal (p : Player) :
    (p.layer = -1 → ascend p = (AscendResult.surfaceReached, p)) ∧
    (p.layer ≠ -1 →
      (ascend p).1 = AscendResult.ascended ∧
      (ascend p).2.layer = p.layer + 1 ∧
      (ascend p).2.health = min p.maxHealth (p.health + 3) ∧
      (ascend p).2.maxHealth = p.maxHealth ∧
      (ascend p).2.skills = p.skills) := by
  constructor
  · intro h
    rw [ascend, if_pos h]
  · intro h
    rw [ascend, if_neg h]
    exact ⟨rfl, rfl, rfl, rfl, rfl⟩

/-- Witness for C9 at a concrete player on layer -1 and another on
layer -10. -/
theorem C9_ascend_terminal_witness :
    ascend ⟨mkCreature "You" 15 [fireballSkill], -1⟩ =
      (AscendResult.surfaceReached, ⟨mkCreature "You" 15 [fireballSkill], -1⟩) ∧
    (ascend ⟨mkCreature "You" 15 [fireballSkill], -10⟩).2.layer = -10 + 1 :=
  ⟨(C9_ascend_terminal ⟨mkCreature "You" 15 [fireballSkill], -1⟩).1 rfl,
   ((C9_ascend_terminal ⟨mkCreature "You" 15 [fireballSkill], -10⟩).2 (by decide)).2.1⟩

/-- C10: `takeDamage` computes `max(0, health - amount)` for every
integer amount, negative ones included; consequently some in-bounds
creature state and some negative amount leave health strictly above max
health, so the non-negativity precondition is necessary for the upper
bound. -/
theorem C10_negative_damage :
    (∀ (c : Creature) (amount : Int),
      (c.takeDamage amount).health = max 0 (c.health - amount)) ∧
    ∃ (c : Creature) (amount : Int),
      0 ≤ c.health ∧ c.health ≤ c.maxHealth ∧ amount < 0 ∧
      c.maxHealth < (c.takeDamage amount).health := by
  refine ⟨fun c amount => rfl, ⟨mkCreature "You" 15 [fireballSkill], -5, ?_, ?_, ?_, ?_⟩⟩
  · decide
  · decide
  · decide
  · decide

end PredatorsOdyssey
